import Mathlib

/-!
Shallow embedding of the gerrit-slack notification service:
the event data model (gerritssh), the project configuration merge
(project.LoadConfig), the universal handler wrapper (events.globalWrapper),
the per-type ignore predicates (ReviewerAdded, CommentAdded), the webhook
delivery queue (webhookSubmitter/publish) and the stream session tail
(gerritssh.Client.StreamEvents).

External collaborators (Go regexp engine, JSON marshalling, HTTP transport,
SSH transport) are modelled as oracle parameters: the embedded functions are
parametric in them, exactly where the Go code calls out to the library.
-/

/-- Constant `gerritssh.ChangeStatusMerged` ("MERGED"). -/
def ChangeStatusMerged : String := "MERGED"

/-- Constant `gerritssh.ChangeStatusAbandoned` ("ABANDONED"). -/
def ChangeStatusAbandoned : String := "ABANDONED"

/-- Go `gerritssh.EventAccount`: a user account inside an Event. -/
structure EventAccount where
  Name : String
  Email : String
  Username : String
deriving Repr, DecidableEq

/-- Go `gerritssh.EventApproval`: an approval inside an Event (`Type` field is
rendered `Typ` because `Type` is reserved in Lean). -/
structure EventApproval where
  Typ : String
  Value : String
  OldValue : String
deriving Repr, DecidableEq

/-- Go `gerritssh.EventChange`: the change inside an Event (fields the embedded
operations consume). -/
structure EventChange where
  Project : String
  Subject : String
  Owner : EventAccount
  URL : String
  CommitMessage : String
  Status : String
  Private : Bool
  WIP : Bool
deriving Repr, DecidableEq

/-- Go `gerritssh.EventPatchSet`: the patch set inside an Event (fields the
embedded operations consume). -/
structure EventPatchSet where
  Number : Int
  Kind : String
  SizeInsertions : Int
  SizeDeletions : Int
  TSCreated : Int
deriving Repr, DecidableEq

/-- Go `gerritssh.Event`: one decoded stream event (fields the embedded
operations consume). -/
structure Event where
  Change : EventChange
  PatchSet : EventPatchSet
  Author : EventAccount
  Reviewer : EventAccount
  Approvals : List EventApproval
  Comment : String
  TSCreated : Int
deriving Repr, DecidableEq

/-- Go `project.Config`: the effective slack-integration configuration.
`OrigPublishOnWipReady`/`OrigPublishOnPrivatePublic` mirror the Go `*bool`
fields (`none` = nil pointer, i.e. never set by any layer). -/
structure Config where
  Enabled : Bool
  WebhookURL : String
  Channel : String
  Username : String
  IgnoreCommitMessage : String
  IgnoreAuthors : String
  IgnoreUnchangedPatchSet : Bool
  IgnoreWipPatchSet : Bool
  IgnorePrivatePatchSet : Bool
  IgnoreOnlyLabels : String
  PublishOnChangeMerged : Bool
  PublishOnCommentAdded : Bool
  PublishOnPatchSetCreated : Bool
  PublishOnReviewerAdded : Bool
  PublishPatchSetReviewersAdded : Bool
  PublishPatchSetCreatedImmediately : Bool
  OrigPublishOnWipReady : Option Bool
  OrigPublishOnPrivatePublic : Option Bool
  PublishOnWipReady : Bool
  PublishOnPrivateToPublic : Bool
deriving Repr, DecidableEq

/-- Go `project.DefaultConfig`: the fixed default configuration.  Go zero values
fill the fields the function does not list. -/
def DefaultConfig : Config :=
  { Enabled := false
    WebhookURL := ""
    Channel := "general"
    Username := "gerrit"
    IgnoreCommitMessage := ""
    IgnoreAuthors := ""
    IgnoreUnchangedPatchSet := true
    IgnoreWipPatchSet := true
    IgnorePrivatePatchSet := true
    IgnoreOnlyLabels := ""
    PublishOnChangeMerged := false
    PublishOnCommentAdded := false
    PublishOnPatchSetCreated := false
    PublishOnReviewerAdded := false
    PublishPatchSetReviewersAdded := false
    PublishPatchSetCreatedImmediately := false
    OrigPublishOnWipReady := none
    OrigPublishOnPrivatePublic := none
    PublishOnWipReady := false
    PublishOnPrivateToPublic := false }

/-- One per-project `project.config` layer as the ini library hands it to
`LoadConfig`: every plugin key is optional; `none` means the key is absent
from this layer, so `MapTo` leaves the accumulated field unchanged. -/
structure ConfigLayer where
  Enabled : Option Bool := none
  WebhookURL : Option String := none
  Channel : Option String := none
  Username : Option String := none
  IgnoreCommitMessage : Option String := none
  IgnoreAuthors : Option String := none
  IgnoreUnchangedPatchSet : Option Bool := none
  IgnoreWipPatchSet : Option Bool := none
  IgnorePrivatePatchSet : Option Bool := none
  IgnoreOnlyLabels : Option String := none
  PublishOnChangeMerged : Option Bool := none
  PublishOnCommentAdded : Option Bool := none
  PublishOnPatchSetCreated : Option Bool := none
  PublishOnReviewerAdded : Option Bool := none
  PublishPatchSetReviewersAdded : Option Bool := none
  PublishPatchSetCreatedImmediately : Option Bool := none
  PublishOnWipReady : Option Bool := none
  PublishOnPrivatePublic : Option Bool := none
deriving Repr, DecidableEq

/-- One iteration of the backwards loop in `project.LoadConfig`:
`c.Section(...).MapTo(&cfg)` overwrites exactly the fields the layer defines
and leaves the rest of the accumulator unchanged.  The `publish-on-wip-ready`
and `publish-on-private-to-public` keys map onto the `*bool` pointers. -/
def applyLayer (cfg : Config) (l : ConfigLayer) : Config :=
  { Enabled := l.Enabled.getD cfg.Enabled
    WebhookURL := l.WebhookURL.getD cfg.WebhookURL
    Channel := l.Channel.getD cfg.Channel
    Username := l.Username.getD cfg.Username
    IgnoreCommitMessage := l.IgnoreCommitMessage.getD cfg.IgnoreCommitMessage
    IgnoreAuthors := l.IgnoreAuthors.getD cfg.IgnoreAuthors
    IgnoreUnchangedPatchSet := l.IgnoreUnchangedPatchSet.getD cfg.IgnoreUnchangedPatchSet
    IgnoreWipPatchSet := l.IgnoreWipPatchSet.getD cfg.IgnoreWipPatchSet
    IgnorePrivatePatchSet := l.IgnorePrivatePatchSet.getD cfg.IgnorePrivatePatchSet
    IgnoreOnlyLabels := l.IgnoreOnlyLabels.getD cfg.IgnoreOnlyLabels
    PublishOnChangeMerged := l.PublishOnChangeMerged.getD cfg.PublishOnChangeMerged
    PublishOnCommentAdded := l.PublishOnCommentAdded.getD cfg.PublishOnCommentAdded
    PublishOnPatchSetCreated := l.PublishOnPatchSetCreated.getD cfg.PublishOnPatchSetCreated
    PublishOnReviewerAdded := l.PublishOnReviewerAdded.getD cfg.PublishOnReviewerAdded
    PublishPatchSetReviewersAdded := l.PublishPatchSetReviewersAdded.getD cfg.PublishPatchSetReviewersAdded
    PublishPatchSetCreatedImmediately := l.PublishPatchSetCreatedImmediately.getD cfg.PublishPatchSetCreatedImmediately
    OrigPublishOnWipReady := (l.PublishOnWipReady.map some).getD cfg.OrigPublishOnWipReady
    OrigPublishOnPrivatePublic := (l.PublishOnPrivatePublic.map some).getD cfg.OrigPublishOnPrivatePublic
    PublishOnWipReady := cfg.PublishOnWipReady
    PublishOnPrivateToPublic := cfg.PublishOnPrivateToPublic }

/-- Go `project.LoadConfig` on the successful path, abstracted over the already
fetched layer chain in root-to-leaf order (the order of the backwards loop):
fold the layers over `DefaultConfig`, then resolve the two derived booleans
from the pointers against the fully merged `PublishOnPatchSetCreated`. -/
def LoadConfig (layers : List ConfigLayer) : Config :=
  let cfg := layers.foldl applyLayer DefaultConfig
  let cfg :=
    match cfg.OrigPublishOnWipReady with
    | none => { cfg with PublishOnWipReady := cfg.PublishOnPatchSetCreated }
    | some b => { cfg with PublishOnWipReady := b }
  match cfg.OrigPublishOnPrivatePublic with
  | none => { cfg with PublishOnPrivateToPublic := cfg.PublishOnPatchSetCreated }
  | some b => { cfg with PublishOnPrivateToPublic := b }

/-- Go `events.regexMatch`: empty pattern never matches; a pattern the engine
rejects is an error; otherwise the compiled matcher is applied.  The Go
regexp engine is the oracle `compile` (`none` = `regexp.Compile` error). -/
def regexMatch (compile : String → Option (String → Bool)) (reg val : String) :
    Except Unit Bool :=
  if reg = "" then .ok false
  else
    match compile reg with
    | none => .error ()
    | some f => .ok (f val)

/-- Go `events.globalWrapper.Ignore` (handler.go, current revision): the global
ignore rules run before the wrapped handler's own predicate. -/
def globalWrapperIgnore (inner : Event → Config → Except Unit Bool)
    (e : Event) (pcfg : Config) : Except Unit Bool :=
  if !pcfg.Enabled then .ok true
  else if pcfg.IgnorePrivatePatchSet && e.Change.Private then .ok true
  else if pcfg.IgnoreWipPatchSet && e.Change.WIP then .ok true
  else inner e pcfg

/-- Go `events.ReviewerAdded.Ignore` (reviewerAdded.go): suppress unless
publish-on-reviewer-added; additionally suppress same-batch reviewer adds
(event created within one second of the patch set) when
publish-patch-set-reviewers-added is off.  The Go error result is always nil,
so the embedding returns plain `Bool`. -/
def ReviewerAddedIgnore (e : Event) (pcfg : Config) : Bool :=
  if !pcfg.PublishOnReviewerAdded then true
  else if !pcfg.PublishPatchSetReviewersAdded then
    if e.TSCreated - e.PatchSet.TSCreated ≤ 1 then true else false
  else false

/-- Go `events.MessageField`: one slack attachment field. -/
structure MessageField where
  Title : String
  Value : String
  Short : Bool
deriving Repr, DecidableEq

/-- Go `events.Message` (messages.go revision with footer/timestamp): a
single-attachment slack message, the embedded `Attachment` flattened. -/
structure Message where
  Fallback : String
  Pretext : String
  Title : String
  TitleLink : String
  Text : String
  Color : String
  Footer : String
  Fields : List MessageField
  TS : Int
  Channel : String
deriving Repr, DecidableEq

/-- Go `events.globalWrapper.Message` (handler.go revision with
footer/timestamp defaulting): after the wrapped handler's render succeeds,
fill every field the handler left blank — channel from the config, title and
link from the change, color good/danger from the change status, footer
"Gerrit", timestamp from the event creation time. -/
def globalWrapperMessage (inner : Event → Config → Except Unit Message)
    (e : Event) (pcfg : Config) : Except Unit Message :=
  match inner e pcfg with
  | .error er => .error er
  | .ok m0 =>
    let m1 := if m0.Channel = "" then { m0 with Channel := pcfg.Channel } else m0
    let m2 := if m1.Title = "" then
        { m1 with Title := e.Change.Subject, TitleLink := e.Change.URL } else m1
    let m3 := if m2.Color = "" then
        { m2 with Color :=
            if e.Change.Status = ChangeStatusMerged ∨ e.Change.Status = ChangeStatusAbandoned
            then "danger" else "good" }
      else m2
    let m4 := if m3.Footer = "" then { m3 with Footer := "Gerrit" } else m3
    let m5 := if m4.TS = 0 then { m4 with TS := e.TSCreated } else m4
    .ok m5

/-- Go `strings.Contains(comment, "\n\n")` on the character sequence of the
comment: a blank line pair, two consecutive newlines. -/
def containsDoubleNewline : List Char → Bool
  | [] => false
  | [_] => false
  | a :: b :: rest =>
    (a = Char.ofNat 10 && b = Char.ofNat 10) || containsDoubleNewline (b :: rest)

/-- The vote loop of `events.CommentAdded.Ignore`: walk the approvals; a
voted approval (non-empty old value) whose label fails the
ignore-only-labels pattern bails immediately with "do not ignore"; a regex
error propagates; if the loop finishes, ignore exactly when some vote was
seen (every voted label matched). -/
def commentVoteLoop (compile : String → Option (String → Bool))
    (labels : String) (voted : Bool) : List EventApproval → Except Unit Bool
  | [] => .ok voted
  | v :: rest =>
    if v.OldValue ≠ "" then
      match regexMatch compile labels v.Typ with
      | .error er => .error er
      | .ok false => .ok false
      | .ok true => commentVoteLoop compile labels true rest
    else
      commentVoteLoop compile labels voted rest

/-- Go `events.CommentAdded.Ignore` (commentAdded.go revision with vote
suppression): suppress unless publish-on-comment-added; suppress authors
matching ignore-authors; a comment with no approvals or with a blank line
pair is never vote-suppressed; otherwise run the vote loop. -/
def CommentAddedIgnore (compile : String → Option (String → Bool))
    (e : Event) (pcfg : Config) : Except Unit Bool :=
  if !pcfg.PublishOnCommentAdded then .ok true
  else
    match regexMatch compile pcfg.IgnoreAuthors e.Author.Username with
    | .error er => .error er
    | .ok true => .ok true
    | .ok false =>
      if e.Approvals.length = 0 || containsDoubleNewline e.Comment.data then .ok false
      else commentVoteLoop compile pcfg.IgnoreOnlyLabels false e.Approvals

/-- Go `webhookSubmit`: a rendered message plus its destination webhook and the
source event type. -/
structure webhookSubmit where
  Msg : Message
  WebhookURL : String
  SourceType : String
deriving Repr, DecidableEq

/-- Outcome of `http.Post` on a webhook URL: transport error, or a response
with a status code. -/
inductive PostResult where
  | netErr
  | status (code : Nat)
deriving Repr, DecidableEq

/-- The `publish` closure of `webhookSubmitter`: empty URL is a no-op
success; a marshalling failure is logged and pretended successful; otherwise
POST the payload — transport errors and statuses other than 200/404/410
fail (retry later), 200/404/410 succeed (404/410 as permanent rejections).
The second component records the URLs actually posted to, so "no HTTP
request is made" is visible.  `post` is the HTTP oracle and `marshal` the
JSON oracle (`none` = `json.Marshal` error). -/
def publish (post : String → PostResult) (marshal : Message → Option String)
    (s : webhookSubmit) : Bool × List String :=
  if s.WebhookURL = "" then (true, [])
  else
    match marshal s.Msg with
    | none => (true, [])
    | some _ =>
      match post s.WebhookURL with
      | .netErr => (false, [s.WebhookURL])
      | .status code =>
        if code = 200 then (true, [s.WebhookURL])
        else if code = 404 then (true, [s.WebhookURL])
        else if code = 410 then (true, [s.WebhookURL])
        else (false, [s.WebhookURL])

/-- The live-intake arm of the `select` in `webhookSubmitter`: attempt the
arriving item once, and append it to the pending list exactly when the
attempt failed. -/
def liveStep (pub : webhookSubmit → Bool) (pending : List webhookSubmit)
    (s : webhookSubmit) : List webhookSubmit :=
  if pub s then pending else pending ++ [s]

/-- The ticker arm of the `select` in `webhookSubmitter`: walk the pending
list in order, attempting each item once; failures are appended to the new
pending list in encounter order.  Returns (new pending list, items
attempted in order). -/
def sweepAttempt (pub : webhookSubmit → Bool) :
    List webhookSubmit → List webhookSubmit × List webhookSubmit
  | [] => ([], [])
  | s :: rest =>
    let r := sweepAttempt pub rest
    ((if pub s then r.1 else s :: r.1), s :: r.2)

/-- Iterated retry sweeps, one publish oracle per sweep (outcomes may change
between sweeps). -/
def sweeps (pubs : List (webhookSubmit → Bool)) (pending : List webhookSubmit) :
    List webhookSubmit :=
  pubs.foldl (fun l pub => (sweepAttempt pub l).1) pending

/-- Go `ssh.ExitMissingError` and generic ssh/session errors, as the opaque
error values `StreamEvents` can return. -/
inductive SSHError where
  | exitMissing
  | err (code : Nat)
deriving Repr, DecidableEq

/-- The three arms of the `select` at the end of
`gerritssh.Client.StreamEvents`: context cancellation, the remote command
returning (its error, `none` = clean exit), or the read loop returning
(`none` = clean EOF). -/
inductive SessionEnd where
  | ctxDone
  | runDone (e : Option SSHError)
  | readDone (e : Option SSHError)
deriving Repr, DecidableEq

/-- Go `gerritssh.Client.StreamEvents`: dial and stdout-pipe failures return
early with their (non-nil) error; otherwise the session runs until the
`select` fires, and a nil error from the winning arm is replaced by
`ssh.ExitMissingError` before returning.  `none` in the result would mean a
nil error returned to the caller. -/
def StreamEvents (dial : Option SSHError) (pipe : Option SSHError)
    (fin : SessionEnd) : Option SSHError :=
  match dial with
  | some e => some e
  | none =>
    match pipe with
    | some e => some e
    | none =>
      let err : Option SSHError :=
        match fin with
        | .ctxDone => none
        | .runDone e => e
        | .readDone e => e
      match err with
      | none => some .exitMissing
      | some e => some e

/-- Left fold of one optional-field overlay, the per-field shape of the
`MapTo` accumulation in `LoadConfig`. -/
def layered (get : ConfigLayer → Option α) (d : α) (layers : List ConfigLayer) : α :=
  layers.foldl (fun acc l => (get l).getD acc) d

/-- Sample account for concrete instantiations. -/
def sampleAccount : EventAccount :=
  { Name := "A", Email := "a@x.com", Username := "a" }

/-- Sample change (open, public, not WIP). -/
def sampleChange : EventChange :=
  { Project := "p", Subject := "subj", Owner := sampleAccount, URL := "http://g/1"
    CommitMessage := "", Status := "NEW", Private := false, WIP := false }

/-- Sample patch set created at timestamp 100. -/
def samplePatchSet : EventPatchSet :=
  { Number := 1, Kind := "REWORK", SizeInsertions := 5, SizeDeletions := 3
    TSCreated := 100 }

/-- Sample event created at the same timestamp as its patch set. -/
def sampleEvent : Event :=
  { Change := sampleChange, PatchSet := samplePatchSet, Author := sampleAccount
    Reviewer := sampleAccount, Approvals := [], Comment := "", TSCreated := 100 }

/-- Sample event created 100 seconds after its patch set. -/
def lateEvent : Event :=
  { sampleEvent with TSCreated := 200 }

/-- A configuration with notifications switched on and an ignore-only-labels
pattern. -/
def enabledConfig : Config :=
  { DefaultConfig with Enabled := true, PublishOnReviewerAdded := true
                       PublishOnCommentAdded := true, IgnoreOnlyLabels := "Verified" }

/-- A message whose optional fields are all left blank by the handler. -/
def blankMessage : Message :=
  { Fallback := "fb", Pretext := "", Title := "", TitleLink := "", Text := ""
    Color := "", Footer := "", Fields := [], TS := 0, Channel := "" }

/-- A vote on the Verified label (old value present, so it counts as a vote). -/
def voteApproval : EventApproval :=
  { Typ := "Verified", Value := "1", OldValue := "0" }

/-- A comment-added event carrying one vote and a single-line comment. -/
def voteEvent : Event :=
  { sampleEvent with Approvals := [voteApproval], Comment := "looks good" }

/-- A regex oracle under which every pattern compiles and matches exactly the
string equal to the pattern. -/
def exactCompile : String → Option (String → Bool) :=
  fun pat => some (fun s => pat == s)

/-- A queued delivery with a non-empty webhook URL. -/
def sampleSubmit : webhookSubmit :=
  { Msg := blankMessage, WebhookURL := "http://hook", SourceType := "change-merged" }

/-- A queued delivery with an empty webhook URL. -/
def emptySubmit : webhookSubmit :=
  { Msg := blankMessage, WebhookURL := "", SourceType := "change-merged" }

/-- HTTP oracle always answering 404. -/
def post404 : String → PostResult := fun _ => .status 404

/-- HTTP oracle always answering 500. -/
def post500 : String → PostResult := fun _ => .status 500

/-- JSON oracle that always succeeds. -/
def marshalOK : Message → Option String := fun _ => some ("payload")

/-- JSON oracle that always fails, the `json.Marshal` error path. -/
def marshalFail : Message → Option String := fun _ => none

/-- Publish oracle succeeding exactly on empty-URL items. -/
def pubEmptyURL : webhookSubmit → Bool := fun s => s.WebhookURL == ""

/-- Root layer: publish-on-patch-set-created on, nothing else set. -/
def layerA : ConfigLayer :=
  { PublishOnPatchSetCreated := some true, Channel := some ("eng") }

/-- Leaf layer: publish-on-patch-set-created off, nothing else set. -/
def layerB : ConfigLayer :=
  { PublishOnPatchSetCreated := some false }

theorem layered_eq_findSome (get : ConfigLayer → Option α) (d : α)
    (layers : List ConfigLayer) :
    layered get d layers = (layers.reverse.findSome? get).getD d := by
  induction layers generalizing d with
  | nil => rfl
  | cons a as ih =>
    show layered get ((get a).getD d) as = _
    rw [ih, List.reverse_cons, List.findSome?_append]
    cases h : as.reverse.findSome? get with
    | some b => simp [h, Option.orElse]
    | none => cases hg : get a <;> simp [h, hg, List.findSome?_cons, Option.orElse]

theorem foldl_applyLayer (layers : List ConfigLayer) (cfg : Config) :
    layers.foldl applyLayer cfg =
      { Enabled := layered ConfigLayer.Enabled cfg.Enabled layers
        WebhookURL := layered ConfigLayer.WebhookURL cfg.WebhookURL layers
        Channel := layered ConfigLayer.Channel cfg.Channel layers
        Username := layered ConfigLayer.Username cfg.Username layers
        IgnoreCommitMessage := layered ConfigLayer.IgnoreCommitMessage cfg.IgnoreCommitMessage layers
        IgnoreAuthors := layered ConfigLayer.IgnoreAuthors cfg.IgnoreAuthors layers
        IgnoreUnchangedPatchSet := layered ConfigLayer.IgnoreUnchangedPatchSet cfg.IgnoreUnchangedPatchSet layers
        IgnoreWipPatchSet := layered ConfigLayer.IgnoreWipPatchSet cfg.IgnoreWipPatchSet layers
        IgnorePrivatePatchSet := layered ConfigLayer.IgnorePrivatePatchSet cfg.IgnorePrivatePatchSet layers
        IgnoreOnlyLabels := layered ConfigLayer.IgnoreOnlyLabels cfg.IgnoreOnlyLabels layers
        PublishOnChangeMerged := layered ConfigLayer.PublishOnChangeMerged cfg.PublishOnChangeMerged layers
        PublishOnCommentAdded := layered ConfigLayer.PublishOnCommentAdded cfg.PublishOnCommentAdded layers
        PublishOnPatchSetCreated := layered ConfigLayer.PublishOnPatchSetCreated cfg.PublishOnPatchSetCreated layers
        PublishOnReviewerAdded := layered ConfigLayer.PublishOnReviewerAdded cfg.PublishOnReviewerAdded layers
        PublishPatchSetReviewersAdded := layered ConfigLayer.PublishPatchSetReviewersAdded cfg.PublishPatchSetReviewersAdded layers
        PublishPatchSetCreatedImmediately := layered ConfigLayer.PublishPatchSetCreatedImmediately cfg.PublishPatchSetCreatedImmediately layers
        OrigPublishOnWipReady := layered (fun l => l.PublishOnWipReady.map some) cfg.OrigPublishOnWipReady layers
        OrigPublishOnPrivatePublic := layered (fun l => l.PublishOnPrivatePublic.map some) cfg.OrigPublishOnPrivatePublic layers
        PublishOnWipReady := cfg.PublishOnWipReady
        PublishOnPrivateToPublic := cfg.PublishOnPrivateToPublic } := by
  induction layers generalizing cfg with
  | nil => rfl
  | cons l ls ih =>
    rw [List.foldl_cons, ih]
    rfl

theorem findSome?_map_some (get : α → Option β) (l : List α) :
    l.findSome? (fun x => (get x).map some) = (l.findSome? get).map some := by
  induction l with
  | nil => rfl
  | cons a as ih => cases h : get a <;> simp [List.findSome?_cons, h, ih]

theorem loadConfig_wipReady (layers : List ConfigLayer) :
    (LoadConfig layers).PublishOnWipReady =
      ((layers.foldl applyLayer DefaultConfig).OrigPublishOnWipReady).getD
        ((layers.foldl applyLayer DefaultConfig).PublishOnPatchSetCreated) := by
  unfold LoadConfig
  cases h1 : (layers.foldl applyLayer DefaultConfig).OrigPublishOnWipReady <;>
    cases h2 : (layers.foldl applyLayer DefaultConfig).OrigPublishOnPrivatePublic <;>
      simp [h1, h2]

theorem loadConfig_privateToPublic (layers : List ConfigLayer) :
    (LoadConfig layers).PublishOnPrivateToPublic =
      ((layers.foldl applyLayer DefaultConfig).OrigPublishOnPrivatePublic).getD
        ((layers.foldl applyLayer DefaultConfig).PublishOnPatchSetCreated) := by
  unfold LoadConfig
  cases h1 : (layers.foldl applyLayer DefaultConfig).OrigPublishOnWipReady <;>
    cases h2 : (layers.foldl applyLayer DefaultConfig).OrigPublishOnPrivatePublic <;>
      simp [h1, h2]

theorem sweepAttempt_snd_eq (pub : webhookSubmit → Bool) (l : List webhookSubmit) :
    (sweepAttempt pub l).2 = l := by
  induction l with
  | nil => rfl
  | cons s rest ih => simp [sweepAttempt, ih]

theorem sweepAttempt_fst_eq_filter (pub : webhookSubmit → Bool) (l : List webhookSubmit) :
    (sweepAttempt pub l).1 = l.filter (fun s => !pub s) := by
  induction l with
  | nil => rfl
  | cons s rest ih =>
    cases h : pub s <;> simp [sweepAttempt, ih, h, List.filter_cons]

theorem sweeps_not_mem (pubs : List (webhookSubmit → Bool)) {s : webhookSubmit}
    {l : List webhookSubmit} (h : s ∉ l) : s ∉ sweeps pubs l := by
  induction pubs generalizing l with
  | nil => exact h
  | cons pub rest ih =>
    show s ∉ sweeps rest (sweepAttempt pub l).1
    refine ih fun hmem => h ?_
    rw [sweepAttempt_fst_eq_filter] at hmem
    exact List.mem_of_mem_filter hmem

theorem commentVoteLoop_spec (compile : String → Option (String → Bool))
    (labels : String) (l : List EventApproval) (voted : Bool)
    (hlab : ∀ v ∈ l, v.OldValue ≠ "" → ∃ b, regexMatch compile labels v.Typ = .ok b) :
    (commentVoteLoop compile labels voted l = .ok true ↔
      ((voted = true ∨ ∃ v ∈ l, v.OldValue ≠ "") ∧
        ∀ v ∈ l, v.OldValue ≠ "" → regexMatch compile labels v.Typ = .ok true)) := by
  induction l generalizing voted with
  | nil =>
    simp only [commentVoteLoop, List.not_mem_nil, false_and, exists_false, or_false,
      List.mem_cons]
    constructor
    · intro h
      refine ⟨?_, by simp⟩
      cases voted with
      | true => rfl
      | false => simp at h
    · rintro ⟨hv, -⟩
      rw [hv]
  | cons v rest ih =>
    have hlabrest : ∀ w ∈ rest, w.OldValue ≠ "" → ∃ b, regexMatch compile labels w.Typ = .ok b :=
      fun w hw => hlab w (List.mem_cons_of_mem v hw)
    by_cases hov : v.OldValue = ""
    · rw [show commentVoteLoop compile labels voted (v :: rest)
            = commentVoteLoop compile labels voted rest by simp [commentVoteLoop, hov]]
      rw [ih voted hlabrest]
      constructor
      · rintro ⟨h1, h2⟩
        refine ⟨?_, ?_⟩
        · rcases h1 with h1 | ⟨w, hw, hwo⟩
          · exact Or.inl h1
          · exact Or.inr ⟨w, List.mem_cons_of_mem v hw, hwo⟩
        · intro w hw hwo
          rcases List.mem_cons.mp hw with rfl | hw2
          · exact absurd hov hwo
          · exact h2 w hw2 hwo
      · rintro ⟨h1, h2⟩
        refine ⟨?_, fun w hw hwo => h2 w (List.mem_cons_of_mem v hw) hwo⟩
        rcases h1 with h1 | ⟨w, hw, hwo⟩
        · exact Or.inl h1
        · rcases List.mem_cons.mp hw with rfl | hw2
          · exact absurd hov hwo
          · exact Or.inr ⟨w, hw2, hwo⟩
    · obtain ⟨b, hb⟩ := hlab v (List.mem_cons_self v rest) hov
      cases b with
      | false =>
        rw [show commentVoteLoop compile labels voted (v :: rest) = .ok false by
          simp [commentVoteLoop, hov, hb]]
        constructor
        · intro h; cases h
        · rintro ⟨-, h2⟩
          have := h2 v (List.mem_cons_self v rest) hov
          rw [hb] at this
          cases this
      | true =>
        rw [show commentVoteLoop compile labels voted (v :: rest)
              = commentVoteLoop compile labels true rest by simp [commentVoteLoop, hov, hb]]
        rw [ih true hlabrest]
        constructor
        · rintro ⟨-, h2⟩
          refine ⟨Or.inr ⟨v, List.mem_cons_self v rest, hov⟩, ?_⟩
          intro w hw hwo
          rcases List.mem_cons.mp hw with rfl | hw2
          · exact hb
          · exact h2 w hw2 hwo
        · rintro ⟨-, h2⟩
          exact ⟨Or.inl rfl, fun w hw hwo => h2 w (List.mem_cons_of_mem v hw) hwo⟩

/-- C8: StreamEvents never returns nil — every session outcome, including a
clean remote exit with a clean read loop, yields a non-nil error, the
synthesized `ssh.ExitMissingError` standing in when neither path produced
one. -/
theorem streamEvents_never_nil (dial pipe : Option SSHError) (fin : SessionEnd) :
    (StreamEvents dial pipe fin).isSome = true ∧
      StreamEvents none none (SessionEnd.runDone none) = some SSHError.exitMissing := by
  constructor
  · cases dial with
    | some e => rfl
    | none =>
      cases pipe with
      | some e => rfl
      | none => cases fin with
        | ctxDone => rfl
        | runDone e => cases e <;> rfl
        | readDone e => cases e <;> rfl
  · rfl

/-- C1: the wrapped handler's ignore decision drops the event before the
per-type predicate runs whenever the configuration is disabled, or the change
is private and private changes are ignored, or the change is WIP and WIP
changes are ignored — whatever the inner handler's own predicate would have
answered, the wrapped Ignore returns true (in particular for every disabled
project). -/
theorem globalWrapperIgnore_precedence (e : Event) (pcfg : Config)
    (h : pcfg.Enabled = false ∨
      (pcfg.IgnorePrivatePatchSet = true ∧ e.Change.Private = true) ∨
      (pcfg.IgnoreWipPatchSet = true ∧ e.Change.WIP = true)) :
    ∀ inner : Event → Config → Except Unit Bool,
      globalWrapperIgnore inner e pcfg = .ok true := by
  intro inner
  rcases h with h | ⟨h1, h2⟩ | ⟨h1, h2⟩
  · simp [globalWrapperIgnore, h]
  · by_cases hE : pcfg.Enabled <;> simp [globalWrapperIgnore, hE, h1, h2]
  · by_cases hE : pcfg.Enabled <;>
      by_cases hP : pcfg.IgnorePrivatePatchSet && e.Change.Private <;>
        simp_all [globalWrapperIgnore]

theorem globalWrapperIgnore_precedence_witness :
    DefaultConfig.Enabled = false ∧
      globalWrapperIgnore (fun _ _ => Except.ok false) sampleEvent DefaultConfig
        = Except.ok true :=
  ⟨rfl, globalWrapperIgnore_precedence sampleEvent DefaultConfig (Or.inl rfl) _⟩

/-- C6: with publish-on-reviewer-added enabled and patch-set-added-reviewers
publishing disabled, a reviewer-added event is ignored when its creation
timestamp lies within the one-second same-batch tolerance of the patch set's
creation timestamp (in particular when they are exactly equal), and is not
ignored when the difference is strictly greater than the tolerance. -/
theorem reviewerAdded_sameBatch (e : Event) (pcfg : Config)
    (h1 : pcfg.PublishOnReviewerAdded = true)
    (h2 : pcfg.PublishPatchSetReviewersAdded = false) :
    (e.TSCreated - e.PatchSet.TSCreated ≤ 1 → ReviewerAddedIgnore e pcfg = true) ∧
    (e.TSCreated = e.PatchSet.TSCreated → ReviewerAddedIgnore e pcfg = true) ∧
    (e.TSCreated - e.PatchSet.TSCreated > 1 → ReviewerAddedIgnore e pcfg = false) := by
  refine ⟨fun h => ?_, fun h => ?_, fun h => ?_⟩
  · simp [ReviewerAddedIgnore, h1, h2, h]
  · simp [ReviewerAddedIgnore, h1, h2, h]
  · have hn : ¬ e.TSCreated - e.PatchSet.TSCreated ≤ 1 := not_le.mpr h
    simp [ReviewerAddedIgnore, h1, h2, hn]

theorem reviewerAdded_sameBatch_witness :
    ReviewerAddedIgnore sampleEvent enabledConfig = true ∧
      ReviewerAddedIgnore lateEvent enabledConfig = false :=
  ⟨(reviewerAdded_sameBatch sampleEvent enabledConfig rfl rfl).2.1 rfl,
    (reviewerAdded_sameBatch lateEvent enabledConfig rfl rfl).2.2 (by decide)⟩

/-- C7: when the wrapped handler's render succeeds, each field left blank is
filled with its default — empty channel becomes the configuration's channel,
empty color becomes "good" ("danger" when the change is MERGED or ABANDONED),
zero timestamp becomes the event's creation time — and fields the handler did
set, as well as the untouched ones, are left unchanged. -/
theorem globalWrapperMessage_defaults (inner : Event → Config → Except Unit Message)
    (e : Event) (pcfg : Config) (m : Message) (h : inner e pcfg = .ok m) :
    ∃ m', globalWrapperMessage inner e pcfg = .ok m' ∧
      (m.Channel = "" → m'.Channel = pcfg.Channel) ∧
      (m.Channel ≠ "" → m'.Channel = m.Channel) ∧
      (m.Color = "" → m'.Color =
        (if e.Change.Status = ChangeStatusMerged ∨ e.Change.Status = ChangeStatusAbandoned
         then "danger" else "good")) ∧
      (m.Color ≠ "" → m'.Color = m.Color) ∧
      (m.TS = 0 → m'.TS = e.TSCreated) ∧
      (m.TS ≠ 0 → m'.TS = m.TS) ∧
      m'.Fallback = m.Fallback ∧ m'.Pretext = m.Pretext ∧
      m'.Text = m.Text ∧ m'.Fields = m.Fields := by
  by_cases h1 : m.Channel = "" <;> by_cases h2 : m.Title = "" <;>
    by_cases h3 : m.Color = "" <;> by_cases h4 : m.Footer = "" <;>
      by_cases h5 : m.TS = 0 <;>
        simp [globalWrapperMessage, h, h1, h2, h3, h4, h5]

theorem globalWrapperMessage_defaults_witness :
    ∃ m', globalWrapperMessage (fun _ _ => Except.ok blankMessage) sampleEvent enabledConfig
        = Except.ok m' ∧
      m'.Channel = "general" ∧ m'.Color = "good" ∧ m'.TS = 100 := by
  obtain ⟨m', hm, hch, -, hcol, -, hts, -, -, -, -, -⟩ :=
    globalWrapperMessage_defaults (fun _ _ => Except.ok blankMessage)
      sampleEvent enabledConfig blankMessage rfl
  refine ⟨m', hm, ?_, ?_, ?_⟩
  · rw [hch rfl]; rfl
  · rw [hcol rfl, if_neg (by decide)]
  · rw [hts rfl]; rfl

/-- C5: for a comment-added event that passes the publish-on-comment-added
and ignore-authors checks, a blank line pair in the comment or an absence of
approvals means the event is never ignored on vote-suppression grounds,
whatever the ignore-only-labels pattern; otherwise, when some approval
carries a vote (non-empty old value) and the label pattern evaluates without
error, the event is ignored exactly when every voted approval's label
matches the ignore-only-labels pattern. -/
theorem commentAdded_voteSuppression (compile : String → Option (String → Bool))
    (e : Event) (pcfg : Config)
    (hp : pcfg.PublishOnCommentAdded = true)
    (ha : regexMatch compile pcfg.IgnoreAuthors e.Author.Username = .ok false) :
    ((containsDoubleNewline e.Comment.data = true ∨ e.Approvals = []) →
      CommentAddedIgnore compile e pcfg = .ok false) ∧
    (containsDoubleNewline e.Comment.data = false → e.Approvals ≠ [] →
      (∀ v ∈ e.Approvals, v.OldValue ≠ "" →
        ∃ b, regexMatch compile pcfg.IgnoreOnlyLabels v.Typ = .ok b) →
      (∃ v ∈ e.Approvals, v.OldValue ≠ "") →
      (CommentAddedIgnore compile e pcfg = .ok true ↔
        ∀ v ∈ e.Approvals, v.OldValue ≠ "" →
          regexMatch compile pcfg.IgnoreOnlyLabels v.Typ = .ok true)) := by
  constructor
  · rintro (hnl | hap)
    · simp [CommentAddedIgnore, hp, ha, hnl]
    · simp [CommentAddedIgnore, hp, ha, hap]
  · intro hnl hap hlab hv
    have hred : CommentAddedIgnore compile e pcfg
        = commentVoteLoop compile pcfg.IgnoreOnlyLabels false e.Approvals := by
      have hlen : ¬ e.Approvals.length = 0 := by
        simpa [List.length_eq_zero] using hap
      simp [CommentAddedIgnore, hp, ha, hnl, hlen]
    rw [hred, commentVoteLoop_spec compile pcfg.IgnoreOnlyLabels e.Approvals false hlab]
    constructor
    · rintro ⟨-, h2⟩
      exact h2
    · intro h2
      exact ⟨Or.inr hv, h2⟩

theorem commentAdded_voteSuppression_witness :
    CommentAddedIgnore exactCompile voteEvent enabledConfig = Except.ok true := by
  have h := (commentAdded_voteSuppression exactCompile voteEvent enabledConfig rfl rfl).2
    rfl (by decide)
    (fun v hv hov => by
      have : v = voteApproval := by simpa [voteEvent] using hv
      subst this
      exact ⟨true, rfl⟩)
    ⟨voteApproval, by simp [voteEvent], by decide⟩
  refine h.mpr fun v hv hov => ?_
  have : v = voteApproval := by simpa [voteEvent] using hv
  subst this
  rfl

/-- C2: when no layer sets publish-on-wip-ready (resp.
publish-on-private-to-public), the resolved value equals the fully merged
publish-on-patch-set-created — the value after all layers are applied; when
some layer does set the override, the resolved value equals its last-set
(leaf-most) value. -/
theorem loadConfig_derivedDefaults (layers : List ConfigLayer) :
    ((∀ l ∈ layers, l.PublishOnWipReady = none) →
      (LoadConfig layers).PublishOnWipReady
        = (layers.foldl applyLayer DefaultConfig).PublishOnPatchSetCreated) ∧
    (∀ b, layers.reverse.findSome? (fun l => l.PublishOnWipReady) = some b →
      (LoadConfig layers).PublishOnWipReady = b) ∧
    ((∀ l ∈ layers, l.PublishOnPrivatePublic = none) →
      (LoadConfig layers).PublishOnPrivateToPublic
        = (layers.foldl applyLayer DefaultConfig).PublishOnPatchSetCreated) ∧
    (∀ b, layers.reverse.findSome? (fun l => l.PublishOnPrivatePublic) = some b →
      (LoadConfig layers).PublishOnPrivateToPublic = b) := by
  have horig1 : (layers.foldl applyLayer DefaultConfig).OrigPublishOnWipReady
      = layers.reverse.findSome? (fun l => l.PublishOnWipReady) := by
    rw [foldl_applyLayer]
    show layered (fun l => l.PublishOnWipReady.map some) none layers = _
    rw [layered_eq_findSome,
      findSome?_map_some (fun l => l.PublishOnWipReady) layers.reverse]
    cases layers.reverse.findSome? (fun l => l.PublishOnWipReady) <;> rfl
  have horig2 : (layers.foldl applyLayer DefaultConfig).OrigPublishOnPrivatePublic
      = layers.reverse.findSome? (fun l => l.PublishOnPrivatePublic) := by
    rw [foldl_applyLayer]
    show layered (fun l => l.PublishOnPrivatePublic.map some) none layers = _
    rw [layered_eq_findSome,
      findSome?_map_some (fun l => l.PublishOnPrivatePublic) layers.reverse]
    cases layers.reverse.findSome? (fun l => l.PublishOnPrivatePublic) <;> rfl
  refine ⟨?_, ?_, ?_, ?_⟩
  · intro hall
    have hnone : layers.reverse.findSome? (fun l => l.PublishOnWipReady) = none := by
      rw [List.findSome?_eq_none_iff]
      intro l hl
      exact hall l (List.mem_reverse.mp hl)
    rw [loadConfig_wipReady, horig1, hnone]
    rfl
  · intro b hb
    rw [loadConfig_wipReady, horig1, hb]
    rfl
  · intro hall
    have hnone : layers.reverse.findSome? (fun l => l.PublishOnPrivatePublic) = none := by
      rw [List.findSome?_eq_none_iff]
      intro l hl
      exact hall l (List.mem_reverse.mp hl)
    rw [loadConfig_privateToPublic, horig2, hnone]
    rfl
  · intro b hb
    rw [loadConfig_privateToPublic, horig2, hb]
    rfl

theorem loadConfig_derivedDefaults_witness :
    (LoadConfig [layerA, layerB]).PublishOnWipReady = false ∧
      (LoadConfig [layerA, layerB]).PublishOnPrivateToPublic = false := by
  constructor
  · rw [(loadConfig_derivedDefaults [layerA, layerB]).1 (by decide)]
    decide
  · rw [(loadConfig_derivedDefaults [layerA, layerB]).2.2.1 (by decide)]
    decide

/-- C4: merging a root-to-leaf layer chain starts from the fixed default
configuration and overwrites, per field, exactly what each layer defines, so
every layered field of the merged accumulator equals the value set by the
leaf-most layer that defines it (the first hit scanning the chain
leaf-to-root) or the default when no layer defines it. -/
theorem configMerge_lastWins (layers : List ConfigLayer) :
    (layers.foldl applyLayer DefaultConfig).Enabled
        = (layers.reverse.findSome? ConfigLayer.Enabled).getD DefaultConfig.Enabled ∧
    (layers.foldl applyLayer DefaultConfig).WebhookURL
        = (layers.reverse.findSome? ConfigLayer.WebhookURL).getD DefaultConfig.WebhookURL ∧
    (layers.foldl applyLayer DefaultConfig).Channel
        = (layers.reverse.findSome? ConfigLayer.Channel).getD DefaultConfig.Channel ∧
    (layers.foldl applyLayer DefaultConfig).Username
        = (layers.reverse.findSome? ConfigLayer.Username).getD DefaultConfig.Username ∧
    (layers.foldl applyLayer DefaultConfig).IgnoreCommitMessage
        = (layers.reverse.findSome? ConfigLayer.IgnoreCommitMessage).getD
            DefaultConfig.IgnoreCommitMessage ∧
    (layers.foldl applyLayer DefaultConfig).IgnoreAuthors
        = (layers.reverse.findSome? ConfigLayer.IgnoreAuthors).getD
            DefaultConfig.IgnoreAuthors ∧
    (layers.foldl applyLayer DefaultConfig).IgnoreUnchangedPatchSet
        = (layers.reverse.findSome? ConfigLayer.IgnoreUnchangedPatchSet).getD
            DefaultConfig.IgnoreUnchangedPatchSet ∧
    (layers.foldl applyLayer DefaultConfig).IgnoreWipPatchSet
        = (layers.reverse.findSome? ConfigLayer.IgnoreWipPatchSet).getD
            DefaultConfig.IgnoreWipPatchSet ∧
    (layers.foldl applyLayer DefaultConfig).IgnorePrivatePatchSet
        = (layers.reverse.findSome? ConfigLayer.IgnorePrivatePatchSet).getD
            DefaultConfig.IgnorePrivatePatchSet ∧
    (layers.foldl applyLayer DefaultConfig).IgnoreOnlyLabels
        = (layers.reverse.findSome? ConfigLayer.IgnoreOnlyLabels).getD
            DefaultConfig.IgnoreOnlyLabels ∧
    (layers.foldl applyLayer DefaultConfig).PublishOnChangeMerged
        = (layers.reverse.findSome? ConfigLayer.PublishOnChangeMerged).getD
            DefaultConfig.PublishOnChangeMerged ∧
    (layers.foldl applyLayer DefaultConfig).PublishOnCommentAdded
        = (layers.reverse.findSome? ConfigLayer.PublishOnCommentAdded).getD
            DefaultConfig.PublishOnCommentAdded ∧
    (layers.foldl applyLayer DefaultConfig).PublishOnPatchSetCreated
        = (layers.reverse.findSome? ConfigLayer.PublishOnPatchSetCreated).getD
            DefaultConfig.PublishOnPatchSetCreated ∧
    (layers.foldl applyLayer DefaultConfig).PublishOnReviewerAdded
        = (layers.reverse.findSome? ConfigLayer.PublishOnReviewerAdded).getD
            DefaultConfig.PublishOnReviewerAdded ∧
    (layers.foldl applyLayer DefaultConfig).PublishPatchSetReviewersAdded
        = (layers.reverse.findSome? ConfigLayer.PublishPatchSetReviewersAdded).getD
            DefaultConfig.PublishPatchSetReviewersAdded ∧
    (layers.foldl applyLayer DefaultConfig).PublishPatchSetCreatedImmediately
        = (layers.reverse.findSome? ConfigLayer.PublishPatchSetCreatedImmediately).getD
            DefaultConfig.PublishPatchSetCreatedImmediately ∧
    (layers.foldl applyLayer DefaultConfig).OrigPublishOnWipReady
        = layers.reverse.findSome? (fun l => l.PublishOnWipReady) ∧
    (layers.foldl applyLayer DefaultConfig).OrigPublishOnPrivatePublic
        = layers.reverse.findSome? (fun l => l.PublishOnPrivatePublic) := by
  rw [foldl_applyLayer]
  refine ⟨?_, ?_, ?_, ?_, ?_, ?_, ?_, ?_, ?_, ?_, ?_, ?_, ?_, ?_, ?_, ?_, ?_, ?_⟩
  · exact layered_eq_findSome _ _ _
  · exact layered_eq_findSome _ _ _
  · exact layered_eq_findSome _ _ _
  · exact layered_eq_findSome _ _ _
  · exact layered_eq_findSome _ _ _
  · exact layered_eq_findSome _ _ _
  · exact layered_eq_findSome _ _ _
  · exact layered_eq_findSome _ _ _
  · exact layered_eq_findSome _ _ _
  · exact layered_eq_findSome _ _ _
  · exact layered_eq_findSome _ _ _
  · exact layered_eq_findSome _ _ _
  · exact layered_eq_findSome _ _ _
  · exact layered_eq_findSome _ _ _
  · exact layered_eq_findSome _ _ _
  · exact layered_eq_findSome _ _ _
  · show layered (fun l => l.PublishOnWipReady.map some) none layers = _
    rw [layered_eq_findSome,
      findSome?_map_some (fun l => l.PublishOnWipReady) layers.reverse]
    cases layers.reverse.findSome? (fun l => l.PublishOnWipReady) <;> rfl
  · show layered (fun l => l.PublishOnPrivatePublic.map some) none layers = _
    rw [layered_eq_findSome,
      findSome?_map_some (fun l => l.PublishOnPrivatePublic) layers.reverse]
    cases layers.reverse.findSome? (fun l => l.PublishOnPrivatePublic) <;> rfl

/-- C3: a queued delivery with an empty webhook URL makes no HTTP request and
counts as delivered, never entering the pending list; a POST answered with
status 200, 404 or 410 counts as done, the item is not appended and — never
being in the pending list — cannot appear in any later sweep; a POST that
fails on the network or returns any other status is appended to the pending
list and is among the items attempted on the next sweep. -/
theorem delivery_outcomes (post : String → PostResult)
    (marshal : Message → Option String) (s : webhookSubmit)
    (pending : List webhookSubmit) :
    (s.WebhookURL = "" →
      publish post marshal s = (true, []) ∧
      liveStep (fun x => (publish post marshal x).1) pending s = pending) ∧
    (∀ c, s.WebhookURL ≠ "" → (marshal s.Msg).isSome = true →
      post s.WebhookURL = .status c → (c = 200 ∨ c = 404 ∨ c = 410) →
      (publish post marshal s).1 = true ∧
      (publish post marshal s).2 = [s.WebhookURL] ∧
      liveStep (fun x => (publish post marshal x).1) pending s = pending) ∧
    (∀ pubs : List (webhookSubmit → Bool), s ∉ pending → s ∉ sweeps pubs pending) ∧
    (s.WebhookURL ≠ "" → (marshal s.Msg).isSome = true →
      post s.WebhookURL = .netErr →
      (publish post marshal s).1 = false ∧
      liveStep (fun x => (publish post marshal x).1) pending s = pending ++ [s] ∧
      ∀ pub2 : webhookSubmit → Bool,
        (sweepAttempt pub2 (pending ++ [s])).2 = pending ++ [s]) ∧
    (∀ c, s.WebhookURL ≠ "" → (marshal s.Msg).isSome = true →
      post s.WebhookURL = .status c → c ≠ 200 → c ≠ 404 → c ≠ 410 →
      (publish post marshal s).1 = false ∧
      liveStep (fun x => (publish post marshal x).1) pending s = pending ++ [s] ∧
      ∀ pub2 : webhookSubmit → Bool,
        (sweepAttempt pub2 (pending ++ [s])).2 = pending ++ [s]) := by
  refine ⟨?_, ?_, ?_, ?_, ?_⟩
  · intro hurl
    have hpub : publish post marshal s = (true, []) := by simp [publish, hurl]
    exact ⟨hpub, by simp [liveStep, hpub]⟩
  · intro c hurl hm hpost hc
    obtain ⟨bs, hbs⟩ := Option.isSome_iff_exists.mp hm
    have hpub : publish post marshal s = (true, [s.WebhookURL]) := by
      rcases hc with rfl | rfl | rfl <;> simp [publish, hurl, hbs, hpost]
    exact ⟨by rw [hpub], by rw [hpub], by simp [liveStep, hpub]⟩
  · intro pubs hs
    exact sweeps_not_mem pubs hs
  · intro hurl hm hpost
    obtain ⟨bs, hbs⟩ := Option.isSome_iff_exists.mp hm
    have hpub : publish post marshal s = (false, [s.WebhookURL]) := by
      simp [publish, hurl, hbs, hpost]
    exact ⟨by rw [hpub], by simp [liveStep, hpub],
      fun pub2 => sweepAttempt_snd_eq pub2 (pending ++ [s])⟩
  · intro c hurl hm hpost hc1 hc2 hc3
    obtain ⟨bs, hbs⟩ := Option.isSome_iff_exists.mp hm
    have hpub : publish post marshal s = (false, [s.WebhookURL]) := by
      simp [publish, hurl, hbs, hpost, hc1, hc2, hc3]
    exact ⟨by rw [hpub], by simp [liveStep, hpub],
      fun pub2 => sweepAttempt_snd_eq pub2 (pending ++ [s])⟩

theorem delivery_outcomes_witness :
    publish post404 marshalOK emptySubmit = (true, []) ∧
      (publish post404 marshalOK sampleSubmit).1 = true ∧
      liveStep (fun x => (publish post500 marshalOK x).1) [] sampleSubmit
        = [sampleSubmit] := by
  refine ⟨((delivery_outcomes post404 marshalOK emptySubmit []).1 rfl).1, ?_, ?_⟩
  · exact ((delivery_outcomes post404 marshalOK sampleSubmit []).2.1 404
      (by decide) rfl rfl (Or.inr (Or.inl rfl))).1
  · have h := ((delivery_outcomes post500 marshalOK sampleSubmit []).2.2.2.2 500
      (by decide) rfl rfl (by decide) (by decide) (by decide)).2.1
    simpa using h

/-- C9: on a retry sweep each pending item is attempted exactly once, in
order; the items failing again form the new pending list in their original
relative order (a sublist of the old list), and every item whose attempt
succeeded or was permanently rejected is removed. -/
theorem sweep_retry_order (pub : webhookSubmit → Bool) (pending : List webhookSubmit) :
    (sweepAttempt pub pending).2 = pending ∧
    (sweepAttempt pub pending).1 = pending.filter (fun s => !pub s) ∧
    List.Sublist (sweepAttempt pub pending).1 pending ∧
    (∀ s ∈ pending, pub s = true → s ∉ (sweepAttempt pub pending).1) := by
  refine ⟨sweepAttempt_snd_eq pub pending, sweepAttempt_fst_eq_filter pub pending, ?_, ?_⟩
  · rw [sweepAttempt_fst_eq_filter]
    exact List.filter_sublist pending
  · intro s hs hpub hmem
    rw [sweepAttempt_fst_eq_filter] at hmem
    have := List.of_mem_filter hmem
    simp [hpub] at this

theorem sweep_retry_order_witness :
    (sweepAttempt pubEmptyURL [emptySubmit, sampleSubmit]).2
        = [emptySubmit, sampleSubmit] ∧
      emptySubmit ∉ (sweepAttempt pubEmptyURL [emptySubmit, sampleSubmit]).1 :=
  ⟨(sweep_retry_order pubEmptyURL [emptySubmit, sampleSubmit]).1,
    (sweep_retry_order pubEmptyURL [emptySubmit, sampleSubmit]).2.2.2 emptySubmit
      (by simp) rfl⟩

/-- C10: a queued message whose JSON marshalling fails is treated as
delivered — no HTTP request is made, and it is never appended to the pending
list — even when its webhook URL is non-empty. -/
theorem marshalFailure_dropped (post : String → PostResult)
    (marshal : Message → Option String) (s : webhookSubmit)
    (pending : List webhookSubmit)
    (hurl : s.WebhookURL ≠ "") (hm : marshal s.Msg = none) :
    publish post marshal s = (true, []) ∧
      liveStep (fun x => (publish post marshal x).1) pending s = pending := by
  have hpub : publish post marshal s = (true, []) := by simp [publish, hurl, hm]
  exact ⟨hpub, by simp [liveStep, hpub]⟩

theorem marshalFailure_dropped_witness :
    publish post404 marshalFail sampleSubmit = (true, []) ∧
      liveStep (fun x => (publish post404 marshalFail x).1) [emptySubmit] sampleSubmit
        = [emptySubmit] :=
  marshalFailure_dropped post404 marshalFail sampleSubmit [emptySubmit] (by decide) rfl
